import Mathlib

/-!
Verification of the tcp-json-proxy repository (server.py, proxy.py, client.py).

The development shallowly embeds the JSON data model, the server's LRU result
cache, the request dispatcher with its arithmetic evaluator, the canonical
cache-key derivation (json.dumps with sort_keys=True), the server connection
loop, and the proxy's reply cache with its metadata compositor.  External
collaborators (the JSON parser json.loads, the network forwarder, the
text-completion delegate) are passed as parameters, exactly at the interface
boundary the code uses them.  Machine numbers (Python ints and floats) are
modelled as exact fractions of integers, exact at every value any claim
touches; all definitions are structurally recursive so the kernel can
evaluate them on concrete inputs.
-/

/-- Python numbers (ints and the float results of the evaluator), modelled as
an exact fraction.  Operations keep the denominator positive; fractions are
not reduced, which is harmless because the claims only compare concrete
results whose construction is deterministic. -/
structure PyNum where
  num : Int
  den : Int
deriving DecidableEq, Repr

/-- Build a fraction with a positive denominator. -/
def mkPos (n d : Int) : PyNum :=
  if d < 0 then ⟨-n, -d⟩ else ⟨n, d⟩

/-- An integer literal. -/
def PyNum.ofInt (n : Int) : PyNum := ⟨n, 1⟩

def pnAdd (a b : PyNum) : PyNum := ⟨a.num * b.den + b.num * a.den, a.den * b.den⟩

def pnSub (a b : PyNum) : PyNum := ⟨a.num * b.den - b.num * a.den, a.den * b.den⟩

def pnMul (a b : PyNum) : PyNum := ⟨a.num * b.num, a.den * b.den⟩

def pnNeg (a : PyNum) : PyNum := ⟨-a.num, a.den⟩

def pnAbs (a : PyNum) : PyNum := ⟨|a.num|, |a.den|⟩

/-- `a ≤ b` on fractions with positive denominators. -/
def pnLe (a b : PyNum) : Bool := decide (a.num * b.den ≤ b.num * a.den)

/-- `math.floor(a)` for a positive-denominator fraction. -/
def pnFloor (a : PyNum) : Int := Int.fdiv a.num a.den

/-- JSON values as produced by Python's json module.  Objects keep insertion
order, like Python dicts. -/
inductive Json where
  | null : Json
  | bool (b : Bool) : Json
  | num (q : PyNum) : Json
  | str (s : String) : Json
  | arr (xs : List Json) : Json
  | obj (kvs : List (String × Json)) : Json

/-- Python truthiness (`bool(v)`) on JSON values: None, False, 0, "", [], {}
are falsy, everything else truthy. -/
def pyTruthy : Json → Bool
  | .null => false
  | .bool b => b
  | .num q => decide (q.num ≠ 0)
  | .str s => decide (s ≠ "")
  | .arr xs => ¬ xs.isEmpty
  | .obj kvs => ¬ kvs.isEmpty

/-- First entry with the given key in an association list (Python dict lookup;
dicts never hold duplicate keys, so the first match is the entry). -/
def jfind (kvs : List (String × Json)) (k : String) : Option Json :=
  (kvs.find? (fun p => decide (p.1 = k))).map (·.2)

/-- `d[k] = v` on a Python dict: update in place when the key is present
(position kept), append at the end otherwise. -/
def objSet (kvs : List (String × Json)) (k : String) (v : Json) :
    List (String × Json) :=
  if kvs.any (fun p => decide (p.1 = k)) then
    kvs.map (fun p => if p.1 = k then (k, v) else p)
  else
    kvs ++ [(k, v)]

/-- `m.get(k)` where `m` must support attribute access: on a non-object (a
Python non-dict) attribute access raises, modelled as `Except.error`. -/
def pyGet (j : Json) (k : String) : Except String (Option Json) :=
  match j with
  | .obj kvs => .ok (jfind kvs k)
  | _ => .error "AttributeError"

/-- Escape a character for the JSON string serializer (quote and backslash,
the cases the claims can meet). -/
def escapeChar (c : Char) : String :=
  if c = '"' then "\\\"" else if c = '\\' then "\\\\" else String.singleton c

/-- Serialize a string with quotes, as json.dumps does. -/
def dumpStr (s : String) : String :=
  "\"" ++ String.join (s.toList.map escapeChar) ++ "\""

/-- Decimal digits of a natural number, most significant first; the fuel is
an upper bound on the digit count. -/
def natDigits : Nat → Nat → List Char
  | 0, _ => []
  | fuel + 1, n =>
    if n < 10 then [Char.ofNat (48 + n)]
    else natDigits fuel (n / 10) ++ [Char.ofNat (48 + n % 10)]

/-- Decimal rendering of an integer. -/
def intToStr (n : Int) : String :=
  if n < 0 then String.mk ('-' :: natDigits (n.natAbs + 1) n.natAbs)
  else String.mk (natDigits (n.natAbs + 1) n.natAbs)

/-- Serialize a JSON number.  Python prints ints and floats in decimal; the
model prints the fraction, an injective encoding of the value (the claims
only compare serializations for equality). -/
def dumpNum (q : PyNum) : String :=
  if q.den = 1 then intToStr q.num else intToStr q.num ++ "/" ++ intToStr q.den

mutual

/-- json.dumps with default separators: serialization in insertion order. -/
def dumps : Json → String
  | .null => "null"
  | .bool true => "true"
  | .bool false => "false"
  | .num q => dumpNum q
  | .str s => dumpStr s
  | .arr xs => "[" ++ String.intercalate ", " (dumpsList xs) ++ "]"
  | .obj kvs => "\x7b" ++ String.intercalate ", " (dumpsPairs kvs) ++ "\x7d"

def dumpsList : List Json → List String
  | [] => []
  | x :: xs => dumps x :: dumpsList xs

def dumpsPairs : List (String × Json) → List String
  | [] => []
  | (k, v) :: xs => (dumpStr k ++ ": " ++ dumps v) :: dumpsPairs xs

end

/-- Code-point comparison of characters, the comparison Python string
ordering (and hence json.dumps key sorting) is built on. -/
def charLtB (a b : Char) : Bool := decide (a.toNat < b.toNat)

/-- Lexicographic code-point order on character lists: Python's `<=` on
strings. -/
def strLeB : List Char → List Char → Bool
  | [], _ => true
  | _ :: _, [] => false
  | a :: as, b :: bs => if a = b then strLeB as bs else charLtB a b

theorem charToNat_inj {a b : Char} (h : a.toNat = b.toNat) : a = b :=
  Char.eq_of_val_eq (UInt32.toNat.inj h)

theorem strLeB_total : ∀ xs ys, strLeB xs ys = true ∨ strLeB ys xs = true := by
  intro xs
  induction xs with
  | nil => intro ys; left; rfl
  | cons x xs ih =>
    intro ys
    cases ys with
    | nil => right; rfl
    | cons y ys =>
      by_cases hxy : x = y
      · subst hxy
        rcases ih ys with h | h
        · left; simpa [strLeB] using h
        · right; simpa [strLeB] using h
      · rcases Nat.lt_trichotomy x.toNat y.toNat with h | h | h
        · left; simp [strLeB, hxy, charLtB, h]
        · exact absurd (charToNat_inj h) hxy
        · right
          have hyx : y ≠ x := fun he => hxy he.symm
          simp [strLeB, hyx, charLtB, h]

theorem strLeB_trans : ∀ xs ys zs, strLeB xs ys = true → strLeB ys zs = true →
    strLeB xs zs = true := by
  intro xs
  induction xs with
  | nil => intro ys zs _ _; rfl
  | cons x xs ih =>
    intro ys zs h1 h2
    cases ys with
    | nil => simp [strLeB] at h1
    | cons y ys =>
      cases zs with
      | nil => simp [strLeB] at h2
      | cons z zs =>
        by_cases hxy : x = y <;> by_cases hyz : y = z
        · subst hxy; subst hyz
          simp only [strLeB, if_pos rfl] at h1 h2 ⊢
          exact ih ys zs h1 h2
        · subst hxy
          simp only [strLeB, if_neg hyz, charLtB, decide_eq_true_eq] at h2
          have hxz : x ≠ z := fun he => absurd (he ▸ h2) (lt_irrefl _)
          simp [strLeB, hxz, charLtB, h2]
        · subst hyz
          simp only [strLeB, if_neg hxy, charLtB, decide_eq_true_eq] at h1
          have hxz : x ≠ y := hxy
          simp [strLeB, hxz, charLtB, h1]
        · simp only [strLeB, if_neg hxy, charLtB, decide_eq_true_eq] at h1
          simp only [strLeB, if_neg hyz, charLtB, decide_eq_true_eq] at h2
          have hlt := lt_trans h1 h2
          have hxz : x ≠ z := fun he => absurd (he ▸ hlt) (lt_irrefl _)
          simp [strLeB, hxz, charLtB, hlt]

theorem strLeB_antisymm : ∀ xs ys, strLeB xs ys = true → strLeB ys xs = true →
    xs = ys := by
  intro xs
  induction xs with
  | nil =>
    intro ys _ h2
    cases ys with
    | nil => rfl
    | cons y ys => simp [strLeB] at h2
  | cons x xs ih =>
    intro ys h1 h2
    cases ys with
    | nil => simp [strLeB] at h1
    | cons y ys =>
      by_cases hxy : x = y
      · subst hxy
        simp only [strLeB, if_pos rfl] at h1 h2
        exact congrArg (x :: ·) (ih ys h1 h2)
      · have hyx : y ≠ x := fun he => hxy he.symm
        simp only [strLeB, if_neg hxy, charLtB, decide_eq_true_eq] at h1
        simp only [strLeB, if_neg hyx, charLtB, decide_eq_true_eq] at h2
        exact absurd (lt_trans h1 h2) (lt_irrefl _)

theorem stringData_inj : ∀ {a b : String}, a.data = b.data → a = b := by
  intro a b h
  cases a; cases b; congr 1

/-- Order on object entries by key, the order json.dumps(sort_keys=True)
sorts with (Python compares strings by code point). -/
def keyLE (p q : String × Json) : Prop := strLeB p.1.data q.1.data = true

instance : DecidableRel keyLE := fun p q =>
  inferInstanceAs (Decidable (strLeB p.1.data q.1.data = true))

instance : IsTotal (String × Json) keyLE :=
  ⟨fun p q => strLeB_total p.1.data q.1.data⟩

instance : IsTrans (String × Json) keyLE :=
  ⟨fun _ q _ h h2 => strLeB_trans _ q.1.data _ h h2⟩

/-- Strict key order, used to identify sorted nodup-key lists. -/
def keyLT (p q : String × Json) : Prop :=
  strLeB p.1.data q.1.data = true ∧ p.1 ≠ q.1

instance : IsAntisymm (String × Json) keyLT :=
  ⟨fun p q h h2 =>
    absurd (stringData_inj (strLeB_antisymm p.1.data q.1.data h.1 h2.1)) h.2⟩

mutual

/-- Recursively sort every object's entries by key: the value whose plain
serialization is json.dumps(msg, sort_keys=True). -/
def canonical : Json → Json
  | .null => .null
  | .bool b => .bool b
  | .num q => .num q
  | .str s => .str s
  | .arr xs => .arr (canonList xs)
  | .obj kvs => .obj (List.insertionSort keyLE (canonPairs kvs))

def canonList : List Json → List Json
  | [] => []
  | x :: xs => canonical x :: canonList xs

def canonPairs : List (String × Json) → List (String × Json)
  | [] => []
  | (k, v) :: xs => (k, canonical v) :: canonPairs xs

end

/-- The server's cache key: `json.dumps(msg, sort_keys=True)` (server.py
line 116), i.e. serialization with object keys sorted at every level. -/
def canonicalKey (j : Json) : String := dumps (canonical j)

-- quick sanity checks that the definitions compute in the kernel
example : pyTruthy (.num ⟨0, 1⟩) = false := by decide
example : canonicalKey (.obj [("b", .null), ("a", .bool true)]) =
    canonicalKey (.obj [("a", .bool true), ("b", .null)]) := by rfl
example : intToStr (-12) = "-12" := by rfl

theorem canonPairs_map_fst : ∀ l : List (String × Json),
    (canonPairs l).map Prod.fst = l.map Prod.fst := by
  intro l
  induction l with
  | nil => rfl
  | cons p l ih => cases p; simp [canonPairs, ih]

theorem canonPairs_eq_map : ∀ l : List (String × Json),
    canonPairs l = l.map (fun p => (p.1, canonical p.2)) := by
  intro l
  induction l with
  | nil => rfl
  | cons p l ih => cases p; simp [canonPairs, ih]

theorem canonList_append : ∀ l₁ l₂ : List Json,
    canonList (l₁ ++ l₂) = canonList l₁ ++ canonList l₂ := by
  intro l₁ l₂
  induction l₁ with
  | nil => rfl
  | cons x l ih => simp [canonList, ih]

theorem canonPairs_append : ∀ l₁ l₂ : List (String × Json),
    canonPairs (l₁ ++ l₂) = canonPairs l₁ ++ canonPairs l₂ := by
  intro l₁ l₂
  induction l₁ with
  | nil => rfl
  | cons p l ih => cases p; simp [canonPairs, ih]

theorem pairwiseAnd {α : Type} {R S : α → α → Prop} :
    ∀ {l : List α}, l.Pairwise R → l.Pairwise S →
      l.Pairwise (fun a b => R a b ∧ S a b) := by
  intro l
  induction l with
  | nil => intro _ _; exact List.Pairwise.nil
  | cons x l ih =>
    intro h1 h2
    rw [List.pairwise_cons] at h1 h2 ⊢
    exact ⟨fun a ha => ⟨h1.1 a ha, h2.1 a ha⟩, ih h1.2 h2.2⟩

/-- Sorting by key is invariant under permutation of the entries when the
keys are distinct (the situation of a Python dict). -/
theorem sortKey_perm_eq {l₁ l₂ : List (String × Json)} (h : l₁.Perm l₂)
    (hnd : (l₁.map Prod.fst).Nodup) :
    List.insertionSort keyLE l₁ = List.insertionSort keyLE l₂ := by
  have p1 := List.perm_insertionSort keyLE l₁
  have p2 := List.perm_insertionSort keyLE l₂
  have hp : (List.insertionSort keyLE l₁).Perm (List.insertionSort keyLE l₂) :=
    (p1.trans h).trans p2.symm
  have s1 : (List.insertionSort keyLE l₁).Sorted keyLE :=
    List.sorted_insertionSort keyLE l₁
  have s2 : (List.insertionSort keyLE l₂).Sorted keyLE :=
    List.sorted_insertionSort keyLE l₂
  have nd1 : ((List.insertionSort keyLE l₁).map Prod.fst).Nodup :=
    ((p1.map Prod.fst).symm).nodup hnd
  have nd2 : ((List.insertionSort keyLE l₂).map Prod.fst).Nodup :=
    (((p2.map Prod.fst).trans ((h.map Prod.fst).symm)).symm).nodup hnd
  have ne1 : (List.insertionSort keyLE l₁).Pairwise (fun p q => p.1 ≠ q.1) :=
    (List.pairwise_map).mp nd1
  have ne2 : (List.insertionSort keyLE l₂).Pairwise (fun p q => p.1 ≠ q.1) :=
    (List.pairwise_map).mp nd2
  have t1 : (List.insertionSort keyLE l₁).Sorted keyLT :=
    (pairwiseAnd s1 ne1).imp (fun h => ⟨h.1, h.2⟩)
  have t2 : (List.insertionSort keyLE l₂).Sorted keyLT :=
    (pairwiseAnd s2 ne2).imp (fun h => ⟨h.1, h.2⟩)
  exact List.eq_of_perm_of_sorted hp t1 t2

/-- Two JSON values are structurally equal up to the insertion order of
object keys: the closure, under reflexivity, transitivity and congruence
(replacing one array element or one object value), of permuting the entries
of one object whose keys are distinct (Python dicts never repeat a key). -/
inductive KeyPerm : Json → Json → Prop where
  | refl (a : Json) : KeyPerm a a
  | trans {a b c : Json} : KeyPerm a b → KeyPerm b c → KeyPerm a c
  | objPerm {kvs₁ kvs₂ : List (String × Json)}
      (hnd : (kvs₁.map Prod.fst).Nodup) (hp : kvs₁.Perm kvs₂) :
      KeyPerm (.obj kvs₁) (.obj kvs₂)
  | arrCongr {v v2 : Json} (xs ys : List Json) :
      KeyPerm v v2 → KeyPerm (.arr (xs ++ v :: ys)) (.arr (xs ++ v2 :: ys))
  | objCongr {v v2 : Json} (ps qs : List (String × Json)) (k : String) :
      KeyPerm v v2 →
      KeyPerm (.obj (ps ++ (k, v) :: qs)) (.obj (ps ++ (k, v2) :: qs))

theorem canonical_keyPerm {a b : Json} (h : KeyPerm a b) :
    canonical a = canonical b := by
  induction h with
  | refl a => rfl
  | trans h1 h2 ih1 ih2 => exact ih1.trans ih2
  | objPerm hnd hp =>
    rename_i kvs₁ kvs₂
    have hp2 : (canonPairs kvs₁).Perm (canonPairs kvs₂) := by
      rw [canonPairs_eq_map, canonPairs_eq_map]
      exact hp.map _
    have hnd2 : ((canonPairs kvs₁).map Prod.fst).Nodup := by
      rw [canonPairs_map_fst]; exact hnd
    simp only [canonical]
    rw [sortKey_perm_eq hp2 hnd2]
  | arrCongr xs ys hv ih =>
    simp only [canonical, canonList_append, canonList]
    rw [ih]
  | objCongr ps qs k hv ih =>
    simp only [canonical, canonPairs_append, canonPairs]
    rw [ih]

/-- C2: two requests that are structurally equal and differ only in the
insertion order of object keys, at any nesting level, derive the same
canonical cache key (json.dumps with sort_keys=True, server.py line 116). -/
theorem canonicalKey_eq_of_keyPerm (A B : Json) (h : KeyPerm A B) :
    canonicalKey A = canonicalKey B :=
  congrArg dumps (canonical_keyPerm h)

/-- Witness for C2 at a concrete pair of requests whose nested `data` object
lists its fields in the two opposite orders. -/
theorem canonicalKey_eq_of_keyPerm_witness :
    KeyPerm
      (Json.obj [("mode", .str "calc"),
                 ("data", .obj [("expr", .str "1+2"), ("cache", .bool true)])])
      (Json.obj [("mode", .str "calc"),
                 ("data", .obj [("cache", .bool true), ("expr", .str "1+2")])]) ∧
    canonicalKey
      (Json.obj [("mode", .str "calc"),
                 ("data", .obj [("expr", .str "1+2"), ("cache", .bool true)])]) =
    canonicalKey
      (Json.obj [("mode", .str "calc"),
                 ("data", .obj [("cache", .bool true), ("expr", .str "1+2")])]) := by
  have hk : KeyPerm
      (Json.obj [("mode", .str "calc"),
                 ("data", .obj [("expr", .str "1+2"), ("cache", .bool true)])])
      (Json.obj [("mode", .str "calc"),
                 ("data", .obj [("cache", .bool true), ("expr", .str "1+2")])]) :=
    KeyPerm.objCongr ([("mode", Json.str "calc")] : List (String × Json)) [] "data"
      (KeyPerm.objPerm (by decide)
        (List.Perm.swap (("cache", Json.bool true) : String × Json)
          ("expr", Json.str "1+2") []))
  exact ⟨hk, canonicalKey_eq_of_keyPerm _ _ hk⟩

/-- The server's LRU cache (server.py lines 24-40): an OrderedDict whose
front is the least recently accessed entry and whose back is the most
recently accessed one, plus the fixed capacity. -/
structure LRUCache (V : Type) where
  capacity : Nat
  d : List (String × V)

/-- A fresh cache, as `LRUCache(capacity)` builds. -/
def LRUCache.empty (V : Type) (capacity : Nat) : LRUCache V := ⟨capacity, []⟩

/-- `OrderedDict.move_to_end(key)`: the entry of the key moves to the back.
(Python raises KeyError on a missing key; both call sites in the source only
reach it with the key present, where this model is exact.) -/
def moveToEnd {V : Type} (d : List (String × V)) (k : String) :
    List (String × V) :=
  match d.find? (fun p => decide (p.1 = k)) with
  | none => d
  | some p => d.eraseP (fun q => decide (q.1 = k)) ++ [p]

/-- `self._d[key] = value`: update in place when present, append otherwise. -/
def dictSet {V : Type} (d : List (String × V)) (k : String) (v : V) :
    List (String × V) :=
  if d.any (fun p => decide (p.1 = k)) then
    d.map (fun p => if p.1 = k then (k, v) else p)
  else
    d ++ [(k, v)]

/-- `LRUCache.get` (server.py lines 30-34): `None` on a miss; on a hit the
entry moves to the most-recently-used position and its value is returned. -/
def LRUCache.get {V : Type} (c : LRUCache V) (k : String) :
    Option V × LRUCache V :=
  match c.d.find? (fun p => decide (p.1 = k)) with
  | none => (none, c)
  | some p => (some p.2, ⟨c.capacity, moveToEnd c.d k⟩)

/-- `LRUCache.set` (server.py lines 36-40): assign, move to the back, then
pop the front entry when the size exceeds the capacity. -/
def LRUCache.set {V : Type} (c : LRUCache V) (k : String) (v : V) :
    LRUCache V :=
  let d2 := moveToEnd (dictSet c.d k v) k
  if c.capacity < d2.length then ⟨c.capacity, d2.tail⟩ else ⟨c.capacity, d2⟩

-- sanity: capacity-2 eviction of the least recently used key
example :
    ((((LRUCache.empty Nat 2).set "k1" 1).set "k2" 2).set "k3" 3).get "k1" =
      (none, (((LRUCache.empty Nat 2).set "k1" 1).set "k2" 2).set "k3" 3) := by
  rfl

/-- C3: with capacity 2 and pairwise-distinct keys, inserting k1, k2, k3 in
order evicts k1 exactly when k1 was not re-accessed (by get or set) between
its insertion and k3's insertion, and `get k1` then misses; in general an
insertion of a new key at full capacity evicts exactly the front — least
recently accessed — entry. -/
theorem lru_capacity2_eviction (V : Type) (k1 k2 k3 : String)
    (v1 v1b v2 v3 : V) (h12 : k1 ≠ k2) (h13 : k1 ≠ k3) (h23 : k2 ≠ k3) :
    ((((LRUCache.empty V 2).set k1 v1).set k2 v2).set k3 v3).get k1 =
      (none, (((LRUCache.empty V 2).set k1 v1).set k2 v2).set k3 v3) ∧
    (((((((LRUCache.empty V 2).set k1 v1).set k2 v2).set k1 v1b).set k3
        v3).get k1).1 = some v1b) ∧
    (((((((LRUCache.empty V 2).set k1 v1).set k2 v2).get k1).2).set k3
        v3).get k1).1 = some v1 ∧
    (∀ (c : LRUCache V) (k : String) (v : V),
      k ∉ c.d.map Prod.fst → c.d.length = c.capacity → 1 ≤ c.capacity →
      (c.set k v).d = c.d.tail ++ [(k, v)]) := by
  have h21 := Ne.symm h12
  have h31 := Ne.symm h13
  have h32 := Ne.symm h23
  refine ⟨?_, ?_, ?_, ?_⟩
  · simp [LRUCache.empty, LRUCache.set, LRUCache.get, dictSet, moveToEnd,
      h12, h13, h23, h21, h31, h32]
  · simp [LRUCache.empty, LRUCache.set, LRUCache.get, dictSet, moveToEnd,
      h12, h13, h23, h21, h31, h32]
  · simp [LRUCache.empty, LRUCache.set, LRUCache.get, dictSet, moveToEnd,
      h12, h13, h23, h21, h31, h32]
  · intro c k v hk hlen hcap
    have hnomatch : ∀ p ∈ c.d, ¬ (decide (p.1 = k) = true) := by
      intro p hp
      simp only [decide_eq_true_eq]
      intro he
      exact hk (he ▸ List.mem_map_of_mem Prod.fst hp)
    have hany : c.d.any (fun p => decide (p.1 = k)) = false := by
      rw [List.any_eq_false]
      intro p hp
      simpa using hnomatch p hp
    have hfind0 : c.d.find? (fun p => decide (p.1 = k)) = none :=
      List.find?_eq_none.mpr hnomatch
    have hds : dictSet c.d k v = c.d ++ [(k, v)] := by
      simp [dictSet, hany]
    have hmv : moveToEnd (dictSet c.d k v) k = c.d ++ [(k, v)] := by
      rw [hds]
      unfold moveToEnd
      rw [List.find?_append, hfind0]
      simp only [Option.none_or, List.find?_cons, decide_eq_true_eq, if_pos rfl]
      rw [List.eraseP_append_right _ hnomatch]
      simp [List.eraseP_cons_of_pos]
    have hne : c.d ≠ [] := by
      intro h0
      rw [h0] at hlen
      simp at hlen
      omega
    have hlen2 : c.capacity < (c.d ++ [(k, v)]).length := by
      simp [hlen]
    unfold LRUCache.set
    rw [hmv, if_pos hlen2]
    cases hd2 : c.d with
    | nil => exact absurd hd2 hne
    | cons p l => simp

/-- Witness for C3 with keys "k1","k2","k3" and numeric values: the
no-re-access run evicts k1. -/
theorem lru_capacity2_eviction_witness :
    ("k1" : String) ≠ "k2" ∧ ("k1" : String) ≠ "k3" ∧
    ("k2" : String) ≠ "k3" ∧
    (((((LRUCache.empty Nat 2).set "k1" 1).set "k2" 2).set "k3" 3).get
      "k1").1 = none := by
  refine ⟨by decide, by decide, by decide, ?_⟩
  have h := lru_capacity2_eviction Nat "k1" "k2" "k3" 1 11 2 3
    (by decide) (by decide) (by decide)
  rw [h.1]

/-- The restricted Python AST the evaluator accepts (server.py lines 43-75):
numeric constants, names, unary and binary operators from the allow-list,
and calls of named functions. -/
inductive Expr where
  | const (q : PyNum) : Expr
  | name (id : String) : Expr
  | unop (neg : Bool) (e : Expr) : Expr
  | binop (op : String) (l r : Expr) : Expr
  | call (f : String) (args : List Expr) : Expr

/-- Largest natural number whose square is at most n, by bounded search
(structurally recursive so the kernel can evaluate it). -/
def isqrt (n : Nat) : Nat :=
  (List.range (n + 1)).foldl (fun acc k => if k * k ≤ n then k else acc) 0

/-- math.sqrt: domain error on negatives, exact where the double result is
an exact square root; an irrational result is not representable in the
fraction model and surfaces as an extra error no claim relies on. -/
def pnSqrt (a : PyNum) : Except String PyNum :=
  if a.num < 0 then .error "math domain error"
  else
    let p := a.num.toNat * a.den.toNat
    if isqrt p * isqrt p = p then .ok ⟨isqrt p, a.den⟩
    else .error "irrational sqrt not modelled"

/-- `operator.truediv`: ZeroDivisionError on a zero divisor. -/
def pnDiv (a b : PyNum) : Except String PyNum :=
  if b.num = 0 then .error "division by zero"
  else .ok (mkPos (a.num * b.den) (a.den * b.num))

/-- `operator.floordiv` on exact values. -/
def pnFloorDiv (a b : PyNum) : Except String PyNum :=
  match pnDiv a b with
  | .error e => .error e
  | .ok q => .ok ⟨pnFloor q, 1⟩

/-- Python `%`: `a - b * (a // b)`. -/
def pnMod (a b : PyNum) : Except String PyNum :=
  match pnFloorDiv a b with
  | .error e => .error e
  | .ok q => .ok (pnSub a (pnMul b q))

/-- `operator.pow` on exact values: integral exponents are exact; a
non-integral exponent generally yields an irrational double and is not
modelled (no claim touches one).  `0 ** negative` raises, as in Python. -/
def pnPow (a e : PyNum) : Except String PyNum :=
  if Int.tmod e.num e.den = 0 then
    let n : Int := Int.tdiv e.num e.den
    if 0 ≤ n then .ok ⟨a.num ^ n.toNat, a.den ^ n.toNat⟩
    else if a.num = 0 then .error "zero to a negative power"
    else .ok (mkPos (a.den ^ (-n).toNat) (a.num ^ (-n).toNat))
  else .error "non-integral exponent not modelled"

/-- The binary operators of `_ALLOWED_OPS`, keyed by their surface syntax. -/
def applyBinOp (op : String) (a b : PyNum) : Except String PyNum :=
  if op = "+" then .ok (pnAdd a b)
  else if op = "-" then .ok (pnSub a b)
  else if op = "*" then .ok (pnMul a b)
  else if op = "/" then pnDiv a b
  else if op = "**" then pnPow a b
  else if op = "//" then pnFloorDiv a b
  else if op = "%" then pnMod a b
  else .error "illegal expression"

/-- `max`/`min` need at least two arguments when called on numbers
(`max(3.0)` raises TypeError in Python). -/
def foldExtremum (useMax : Bool) : List PyNum → Except String PyNum
  | [] => .error "TypeError"
  | [_] => .error "TypeError"
  | a :: rest =>
    .ok (rest.foldl (fun acc x =>
      if useMax then (if pnLe acc x then x else acc)
      else (if pnLe x acc then x else acc)) a)

/-- `_ALLOWED_FUNCS` applied to evaluated arguments.  The transcendental
functions return irrational doubles at almost every point; they are not
modelled and surface as an extra error no claim relies on. -/
def applyFunc (f : String) (args : List PyNum) : Except String PyNum :=
  if f = "sqrt" then
    match args with
    | [a] => pnSqrt a
    | _ => .error "TypeError"
  else if f = "abs" then
    match args with
    | [a] => .ok (pnAbs a)
    | _ => .error "TypeError"
  else if f = "max" then foldExtremum true args
  else if f = "min" then foldExtremum false args
  else if f = "sin" ∨ f = "cos" ∨ f = "tan" ∨ f = "log" ∨ f = "exp" then
    .error "transcendental result not modelled"
  else .error "illegal function call"

/-- `math.pi` and `math.e` as the exact values of the IEEE doubles Python
uses (884279719003555 / 2^48 and 6121026514868073 / 2^51). -/
def constLookup (id : String) : Option PyNum :=
  if id = "pi" then some ⟨884279719003555, 281474976710656⟩
  else if id = "e" then some ⟨6121026514868073, 2251799813685248⟩
  else none

mutual

/-- `_eval_node` (server.py lines 54-75): evaluate the restricted AST;
`.error` is a raised exception (ValueError, ZeroDivisionError, TypeError). -/
def evalNode : Expr → Except String PyNum
  | .const q => .ok q
  | .name id =>
    match constLookup id with
    | some v => .ok v
    | none => .error ("unknown symbol " ++ id)
  | .unop neg e =>
    match evalNode e with
    | .error err => .error err
    | .ok v => .ok (if neg then pnNeg v else v)
  | .binop op l r =>
    match evalNode l with
    | .error err => .error err
    | .ok a =>
      match evalNode r with
      | .error err => .error err
      | .ok b => applyBinOp op a b
  | .call f args =>
    match evalArgs args with
    | .error err => .error err
    | .ok vs => applyFunc f vs

def evalArgs : List Expr → Except String (List PyNum)
  | [] => .ok []
  | e :: es =>
    match evalNode e with
    | .error err => .error err
    | .ok v =>
      match evalArgs es with
      | .error err => .error err
      | .ok vs => .ok (v :: vs)

end

/-- ASCII digit test (kernel-evaluable). -/
def isDigitC (c : Char) : Bool := decide (48 ≤ c.toNat ∧ c.toNat ≤ 57)

/-- Identifier start: letter or underscore. -/
def isIdentStartC (c : Char) : Bool :=
  decide ((65 ≤ c.toNat ∧ c.toNat ≤ 90) ∨ (97 ≤ c.toNat ∧ c.toNat ≤ 122) ∨
    c.toNat = 95)

/-- Identifier continuation: letter, underscore or digit. -/
def isIdentC (c : Char) : Bool := isIdentStartC c || isDigitC c

/-- Read a run of digits, returning the accumulated value, the digit count
and the rest. -/
def lexDigits (acc cnt : Nat) : List Char → (Nat × Nat × List Char)
  | [] => (acc, cnt, [])
  | c :: cs =>
    if isDigitC c then lexDigits (acc * 10 + (c.toNat - 48)) (cnt + 1) cs
    else (acc, cnt, c :: cs)

/-- Read a run of identifier characters (reversed accumulator). -/
def lexIdent (acc : List Char) : List Char → (List Char × List Char)
  | [] => (acc.reverse, [])
  | c :: cs =>
    if isIdentC c then lexIdent (c :: acc) cs
    else (acc.reverse, c :: cs)

/-- Tokens of the arithmetic expression grammar. -/
inductive Tok where
  | num (q : PyNum) : Tok
  | ident (s : String) : Tok
  | op (s : String) : Tok
  | lparen : Tok
  | rparen : Tok
  | comma : Tok
deriving DecidableEq

/-- Tokenizer modelling Python's `ast.parse` lexing of the arithmetic
fragment the server accepts: integer and decimal literals, identifiers, the
operators of `_ALLOWED_OPS`, parentheses, commas.  `none` is a SyntaxError.
The fuel is an upper bound on the character count. -/
def tokenize : Nat → List Char → Option (List Tok)
  | 0, _ => none
  | _ + 1, [] => some []
  | fuel + 1, c :: cs =>
    if c = ' ' ∨ c = '\t' then tokenize fuel cs
    else if isDigitC c then
      match lexDigits 0 0 (c :: cs) with
      | (v, _, rest) =>
        match rest with
        | '.' :: rest2 =>
          match lexDigits 0 0 rest2 with
          | (f, fc, rest3) =>
            (tokenize fuel rest3).map
              (fun ts => .num ⟨v * 10 ^ fc + f, 10 ^ fc⟩ :: ts)
        | _ => (tokenize fuel rest).map (fun ts => .num ⟨v, 1⟩ :: ts)
    else if isIdentStartC c then
      match lexIdent [c] cs with
      | (id, rest) =>
        (tokenize fuel rest).map (fun ts => .ident (String.mk id) :: ts)
    else if c = '*' then
      match cs with
      | '*' :: cs2 => (tokenize fuel cs2).map (fun ts => .op "**" :: ts)
      | _ => (tokenize fuel cs).map (fun ts => .op "*" :: ts)
    else if c = '/' then
      match cs with
      | '/' :: cs2 => (tokenize fuel cs2).map (fun ts => .op "//" :: ts)
      | _ => (tokenize fuel cs).map (fun ts => .op "/" :: ts)
    else if c = '+' then (tokenize fuel cs).map (fun ts => .op "+" :: ts)
    else if c = '-' then (tokenize fuel cs).map (fun ts => .op "-" :: ts)
    else if c = '%' then (tokenize fuel cs).map (fun ts => .op "%" :: ts)
    else if c = '(' then (tokenize fuel cs).map (fun ts => .lparen :: ts)
    else if c = ')' then (tokenize fuel cs).map (fun ts => .rparen :: ts)
    else if c = ',' then (tokenize fuel cs).map (fun ts => .comma :: ts)
    else none

mutual

/-- Addition level of the recursive-descent parser modelling `ast.parse`
(mode eval) on the server's expression grammar. -/
def parseExpr : Nat → List Tok → Option (Expr × List Tok)
  | 0, _ => none
  | fuel + 1, ts =>
    match parseTerm fuel ts with
    | none => none
    | some (e, rest) => parseAddRest fuel e rest

def parseAddRest : Nat → Expr → List Tok → Option (Expr × List Tok)
  | 0, _, _ => none
  | fuel + 1, acc, ts =>
    match ts with
    | .op "+" :: rest =>
      match parseTerm fuel rest with
      | none => none
      | some (e, r) => parseAddRest fuel (.binop "+" acc e) r
    | .op "-" :: rest =>
      match parseTerm fuel rest with
      | none => none
      | some (e, r) => parseAddRest fuel (.binop "-" acc e) r
    | _ => some (acc, ts)

def parseTerm : Nat → List Tok → Option (Expr × List Tok)
  | 0, _ => none
  | fuel + 1, ts =>
    match parseUnary fuel ts with
    | none => none
    | some (e, rest) => parseTermRest fuel e rest

def parseTermRest : Nat → Expr → List Tok → Option (Expr × List Tok)
  | 0, _, _ => none
  | fuel + 1, acc, ts =>
    match ts with
    | .op "*" :: rest =>
      match parseUnary fuel rest with
      | none => none
      | some (e, r) => parseTermRest fuel (.binop "*" acc e) r
    | .op "/" :: rest =>
      match parseUnary fuel rest with
      | none => none
      | some (e, r) => parseTermRest fuel (.binop "/" acc e) r
    | .op "//" :: rest =>
      match parseUnary fuel rest with
      | none => none
      | some (e, r) => parseTermRest fuel (.binop "//" acc e) r
    | .op "%" :: rest =>
      match parseUnary fuel rest with
      | none => none
      | some (e, r) => parseTermRest fuel (.binop "%" acc e) r
    | _ => some (acc, ts)

def parseUnary : Nat → List Tok → Option (Expr × List Tok)
  | 0, _ => none
  | fuel + 1, ts =>
    match ts with
    | .op "-" :: rest =>
      match parseUnary fuel rest with
      | none => none
      | some (e, r) => some (.unop true e, r)
    | .op "+" :: rest =>
      match parseUnary fuel rest with
      | none => none
      | some (e, r) => some (.unop false e, r)
    | _ => parsePower fuel ts

def parsePower : Nat → List Tok → Option (Expr × List Tok)
  | 0, _ => none
  | fuel + 1, ts =>
    match parseAtom fuel ts with
    | none => none
    | some (e, rest) =>
      match rest with
      | .op "**" :: rest2 =>
        match parseUnary fuel rest2 with
        | none => none
        | some (e2, r) => some (.binop "**" e e2, r)
      | _ => some (e, rest)

def parseAtom : Nat → List Tok → Option (Expr × List Tok)
  | 0, _ => none
  | fuel + 1, ts =>
    match ts with
    | .num q :: rest => some (.const q, rest)
    | .ident f :: .lparen :: rest =>
      match rest with
      | .rparen :: r => some (.call f [], r)
      | _ =>
        match parseExpr fuel rest with
        | none => none
        | some (a, r) =>
          match parseArgsRest fuel [a] r with
          | none => none
          | some (args, r2) => some (.call f args, r2)
    | .ident x :: rest => some (.name x, rest)
    | .lparen :: rest =>
      match parseExpr fuel rest with
      | none => none
      | some (e, r) =>
        match r with
        | .rparen :: r2 => some (e, r2)
        | _ => none
    | _ => none

def parseArgsRest : Nat → List Expr → List Tok → Option (List Expr × List Tok)
  | 0, _, _ => none
  | fuel + 1, acc, ts =>
    match ts with
    | .comma :: rest =>
      match parseExpr fuel rest with
      | none => none
      | some (a, r) => parseArgsRest fuel (acc ++ [a]) r
    | .rparen :: rest => some (acc, rest)
    | _ => none

end

/-- `safe_eval_expr` (server.py lines 77-80): parse with ast.parse, evaluate
with `_eval_node`, convert to float (the identity on the exact fraction
model).  `.error` is a raised exception. -/
def safe_eval_expr (s : String) : Except String PyNum :=
  match tokenize (s.data.length + 1) s.data with
  | none => .error "SyntaxError"
  | some ts =>
    match parseExpr (ts.length * 4 + 8) ts with
    | some (e, []) => evalNode e
    | _ => .error "SyntaxError"

-- sanity: the evaluator agrees with the spec's test vectors
example : safe_eval_expr "1+2" = .ok ⟨3, 1⟩ := by rfl
example : safe_eval_expr "sqrt(9)" = .ok ⟨3, 1⟩ := by rfl
example : safe_eval_expr "10/0" = .error "division by zero" := by rfl
example : safe_eval_expr "2*3" = .ok ⟨6, 1⟩ := by rfl
example : safe_eval_expr "10/2" = .ok ⟨10, 2⟩ := by rfl
example : safe_eval_expr "foo" = .error "unknown symbol foo" := by rfl
example : safe_eval_expr "1)(" = .error "SyntaxError" := by rfl

/-- Python whitespace (the characters `str.strip()` removes). -/
def isPySpace (c : Char) : Bool :=
  decide (c = ' ' ∨ c = '\t' ∨ c = '\n' ∨ c = '\r' ∨
    c = Char.ofNat 11 ∨ c = Char.ofNat 12)

/-- `str.strip()`: drop leading and trailing whitespace. -/
def pyStrip (s : String) : String :=
  String.mk (((s.data.dropWhile isPySpace).reverse.dropWhile isPySpace).reverse)

/-- Outcome of the text-completion delegate call inside `call_gpt`: the API
returned a response carrying text, a response without usable text, or any
exception (network, auth, quota, bad model...). -/
inductive GptOutcome where
  | text (t : String) : GptOutcome
  | noText : GptOutcome
  | exn (e : String) : GptOutcome

/-- `call_gpt` (server.py lines 82-104): returns the stripped response text,
an inline empty-response marker, or an inline error marker — it never
raises. -/
def call_gpt : GptOutcome → String
  | .text t =>
    if t ≠ "" then pyStrip t
    else "[GPT] Empty response (model returned no text)."
  | .noText => "[GPT] Empty response (model returned no text)."
  | .exn e => "[GPT-ERROR] " ++ e

/-- `{ok: false, error: e}`. -/
def errResp (e : String) : Json := .obj [("ok", .bool false), ("error", .str e)]

/-- The success envelope on a server-cache miss (server.py lines 153-161). -/
def okResp (res : Json) (took : Int) : Json :=
  .obj [("ok", .bool true), ("result", res),
        ("meta", .obj [("from_cache", .bool false), ("any_cache", .bool false),
                       ("took_ms", .num ⟨took, 1⟩)])]

/-- The success envelope on a server-cache hit (server.py lines 123-131). -/
def hitResp (res : Json) (took : Int) : Json :=
  .obj [("ok", .bool true), ("result", res),
        ("meta", .obj [("from_cache", .bool true), ("any_cache", .bool true),
                       ("took_ms", .num ⟨took, 1⟩)])]

/-- `msg.get(k) or {}` (server.py lines 111-112): the default for an absent
or falsy value is the empty dict. -/
def orEmptyDict (v : Option Json) : Json :=
  match v with
  | some j => if pyTruthy j then j else .obj []
  | none => .obj []

/-- The dispatch part of the `try` block of `handle_request` (server.py
lines 134-146): validation failures return an error envelope (`.inl`),
successes return the computed result value (`.inr`), raised exceptions are
`.error`. -/
def requestBody (gpt : GptOutcome) (mode : Option Json) (data : Json) :
    Except String (Json ⊕ Json) :=
  match mode with
  | some (.str m) =>
    if m = "calc" then
      match pyGet data "expr" with
      | .error e => .error e
      | .ok exprOpt =>
        match exprOpt.getD .null with
        | .str s =>
          if s = "" then
            .ok (.inl (errResp "Bad request: 'expr' is required (string)"))
          else
            match safe_eval_expr s with
            | .ok q => .ok (.inr (.num q))
            | .error e => .error e
        | _ => .ok (.inl (errResp "Bad request: 'expr' is required (string)"))
    else if m = "gpt" then
      match pyGet data "prompt" with
      | .error e => .error e
      | .ok pOpt =>
        match pOpt.getD .null with
        | .str s =>
          if s = "" then
            .ok (.inl (errResp "Bad request: 'prompt' is required (string)"))
          else .ok (.inr (.str (call_gpt gpt)))
        | _ => .ok (.inl (errResp "Bad request: 'prompt' is required (string)"))
    else .ok (.inl (errResp "Bad request: unknown mode"))
  | _ => .ok (.inl (errResp "Bad request: unknown mode"))

/-- The whole `try/except` of `handle_request` after the cache check
(server.py lines 134-164): exceptions become a "Server error" envelope;
successful results are stored in the cache when caching is enabled. -/
def dispatchAndRespond (gpt : GptOutcome) (took : Int) (mode : Option Json)
    (data : Json) (use_cache : Bool) (key : String) (cache : LRUCache Json) :
    Json × LRUCache Json :=
  match requestBody gpt mode data with
  | .error e => (errResp ("Server error: " ++ e), cache)
  | .ok (.inl env) => (env, cache)
  | .ok (.inr res) =>
    if use_cache then (okResp res took, cache.set key res)
    else (okResp res took, cache)

/-- `handle_request` (server.py lines 109-164).  `took` abstracts the wall
clock (`time.time()` differences); `.error` is an exception escaping
`handle_request` (e.g. attribute access on a non-dict `options`), caught by
`handle_client`'s broad guard. -/
def handleRequest (gpt : GptOutcome) (took : Int) (msg : Json)
    (cache : LRUCache Json) : Except String (Json × LRUCache Json) :=
  match pyGet msg "mode" with
  | .error e => .error e
  | .ok mode =>
    match pyGet msg "data" with
    | .error e => .error e
    | .ok dataRaw =>
      match pyGet msg "options" with
      | .error e => .error e
      | .ok optsRaw =>
        match pyGet (orEmptyDict optsRaw) "cache" with
        | .error e => .error e
        | .ok cacheOpt =>
          if pyTruthy (cacheOpt.getD (.bool true)) then
            match cache.get (canonicalKey msg) with
            | (some hit, cache2) => .ok (hitResp hit took, cache2)
            | (none, cache2) =>
              .ok (dispatchAndRespond gpt took mode (orEmptyDict dataRaw)
                (pyTruthy (cacheOpt.getD (.bool true))) (canonicalKey msg)
                cache2)
          else
            .ok (dispatchAndRespond gpt took mode (orEmptyDict dataRaw)
              (pyTruthy (cacheOpt.getD (.bool true))) (canonicalKey msg)
              cache)

/-- The envelope `handle_client` sends when a line raises (server.py
lines 212-219). -/
def mkMalformed (e : String) : Json :=
  .obj [("ok", .bool false), ("error", .str ("Malformed: " ++ e))]

/-- `handle_client`'s per-line loop (server.py lines 178-219) on the framed
lines of a connection, parameterized by the JSON parser (`json.loads`): each
line is parsed and handled in order; the first raised exception (parse
failure or an exception out of `handle_request`) sends one Malformed
envelope and tears the connection down, dropping every remaining line. -/
def serverLoop (parse : String → Except String Json) (gpt : GptOutcome)
    (took : Int) : List String → LRUCache Json → List Json × LRUCache Json
  | [], cache => ([], cache)
  | l :: ls, cache =>
    match parse l with
    | .error e => ([mkMalformed e], cache)
    | .ok msg =>
      match handleRequest gpt took msg cache with
      | .error e => ([mkMalformed e], cache)
      | .ok (resp, cache2) =>
        match serverLoop parse gpt took ls cache2 with
        | (rest, cfin) => (resp :: rest, cfin)

/-- The `ok` field of a response envelope. -/
def jget (j : Json) (k : String) : Option Json :=
  match j with
  | .obj kvs => jfind kvs k
  | _ => none

-- sanity: full request handling on a calc request
example :
    handleRequest (.exn "boom") 0
      (.obj [("mode", .str "calc"), ("data", .obj [("expr", .str "1+2")])])
      (LRUCache.empty Json 2) =
    .ok (okResp (.num ⟨3, 1⟩) 0,
      (LRUCache.empty Json 2).set
        (canonicalKey (.obj [("mode", .str "calc"),
                             ("data", .obj [("expr", .str "1+2")])]))
        (.num ⟨3, 1⟩)) := by rfl

/-- `meta = resp_obj.get("meta") or {}` followed by the isinstance guard
(proxy.py lines 102-104): the meta mapping the compositor works on. -/
def metaPairsOf (kvs : List (String × Json)) : List (String × Json) :=
  let m0 := (jfind kvs "meta").getD .null
  let m1 := if pyTruthy m0 then m0 else .obj []
  match m1 with
  | .obj l => l
  | _ => []

/-- `server_from_cache = bool(meta.get("from_cache"))` (proxy.py line 107):
Python truthiness of the stored flag, false when absent. -/
def serverHitOf (kvs : List (String × Json)) : Bool :=
  pyTruthy ((jfind (metaPairsOf kvs) "from_cache").getD .null)

/-- The Meta Compositor (proxy.py lines 102-116): on a parsed JSON object,
write `proxy_from_cache` and `any_cache` into `meta` and the updated `meta`
back into the reply; attribute access on a non-dict reply raises. -/
def composeObj (respObj : Json) (ph : Bool) : Except String Json :=
  match respObj with
  | .obj kvs =>
    let m2 := objSet (metaPairsOf kvs) "proxy_from_cache" (.bool ph)
    let m3 := objSet m2 "any_cache" (.bool (serverHitOf kvs || ph))
    .ok (.obj (objSet kvs "meta" (.obj m3)))
  | _ => .error "AttributeError"

/-- A field of the composed reply's `meta`, `none` when composition raised. -/
def composedMetaField (respObj : Json) (ph : Bool) (field : String) :
    Option Json :=
  match composeObj respObj ph with
  | .ok j => (jget j "meta").bind (fun m => jget m field)
  | .error _ => none

/-- The proxy process state: `PROXY_CACHE` plus a counter of upstream
forwarder invocations (the call counter of the spec's test property). -/
structure ProxyState where
  cache : List (String × String)
  calls : Nat

/-- `PROXY_CACHE[req]` lookup. -/
def lookupS (cache : List (String × String)) (k : String) : Option String :=
  (cache.find? (fun p => decide (p.1 = k))).map (·.2)

/-- What processing one framed client line produces: nothing (blank line),
one reply line, or an exception that aborts the connection loop. -/
inductive PResult where
  | skip : PResult
  | reply (s : String) : PResult
  | fatal (e : String) : PResult

/-- Parse-and-compose on a base reply (proxy.py lines 94-122): a reply that
is not JSON is relayed unchanged; a JSON reply gets the composed metadata;
composition raising (non-dict JSON) aborts the loop. -/
def composeReply (parse : String → Except String Json) (base : String)
    (ph : Bool) : PResult :=
  match parse base with
  | .error _ => .reply base
  | .ok j =>
    match composeObj j ph with
    | .ok j2 => .reply (dumps j2)
    | .error e => .fatal e

/-- One iteration of the proxy's per-line loop (proxy.py lines 66-122),
parameterized by the JSON parser (`json.loads`) and the Forwarder
(`forward_request_to_server`): strip the line, skip it when empty, serve
from `PROXY_CACHE` or forward and store the raw server reply, then compose
metadata with `proxyHit` saying which branch ran. -/
def proxyStep (parse : String → Except String Json)
    (forward : String → String) (st : ProxyState) (line : String) :
    PResult × ProxyState :=
  let req := pyStrip line
  if req = "" then (.skip, st)
  else
    match lookupS st.cache req with
    | some base => (composeReply parse base true, st)
    | none =>
      let base := forward req
      (composeReply parse base false,
       ⟨dictSet st.cache req base, st.calls + 1⟩)

-- sanity: a first request forwards and stores, a repeat serves from cache
example :
    (proxyStep (fun _ => .error "x") (fun _ => "pong") ⟨[], 0⟩ "ping").2 =
      ⟨[("ping", "pong")], 1⟩ := by rfl
example :
    (proxyStep (fun _ => .error "x") (fun _ => "other") ⟨[("ping", "pong")], 1⟩
      "ping") = (.reply "pong", ⟨[("ping", "pong")], 1⟩) := by rfl

theorem find?_map_replace (k : String) (v : Json) :
    ∀ kvs : List (String × Json),
      kvs.any (fun p => decide (p.1 = k)) = true →
      (kvs.map (fun p => if p.1 = k then (k, v) else p)).find?
        (fun p => decide (p.1 = k)) = some (k, v) := by
  intro kvs
  induction kvs with
  | nil => intro h; simp at h
  | cons p l ih =>
    intro h
    by_cases hp : p.1 = k
    · simp [List.find?, hp]
    · have h2 : l.any (fun p => decide (p.1 = k)) = true := by
        simpa [List.any_cons, hp] using h
      simpa [List.find?_cons, hp] using ih h2

theorem find?_map_replace_other (k k2 : String) (v : Json) (hne : k2 ≠ k) :
    ∀ kvs : List (String × Json),
      (kvs.map (fun p => if p.1 = k then (k, v) else p)).find?
        (fun p => decide (p.1 = k2)) =
      kvs.find? (fun p => decide (p.1 = k2)) := by
  intro kvs
  induction kvs with
  | nil => rfl
  | cons p l ih =>
    by_cases hp : p.1 = k
    · have h1 : ¬((k, v).1 = k2) := fun he => hne he.symm
      have h2 : ¬(p.1 = k2) := by
        rw [hp]; exact fun he => hne he.symm
      simp only [List.map_cons, if_pos hp, List.find?_cons]
      rw [decide_eq_false h1, decide_eq_false h2]
      exact ih
    · simp only [List.map_cons, if_neg hp, List.find?_cons]
      cases hd : decide (p.1 = k2) with
      | true => rfl
      | false => exact ih

/-- Writing a key and reading it back. -/
theorem jfind_objSet_self (kvs : List (String × Json)) (k : String)
    (v : Json) : jfind (objSet kvs k v) k = some v := by
  unfold objSet jfind
  by_cases h : kvs.any (fun p => decide (p.1 = k)) = true
  · rw [if_pos h, find?_map_replace k v kvs h]
    rfl
  · rw [if_neg h, List.find?_append]
    have hnone : kvs.find? (fun p => decide (p.1 = k)) = none := by
      rw [List.find?_eq_none]
      intro p hp
      simp only [decide_eq_true_eq]
      intro he
      exact h (List.any_eq_true.mpr ⟨p, hp, by simpa using he⟩)
    rw [hnone]
    simp [List.find?]

/-- Writing a key leaves the lookup of any other key unchanged. -/
theorem jfind_objSet_other (kvs : List (String × Json)) (k k2 : String)
    (v : Json) (hne : k2 ≠ k) : jfind (objSet kvs k v) k2 = jfind kvs k2 := by
  unfold objSet jfind
  by_cases h : kvs.any (fun p => decide (p.1 = k)) = true
  · rw [if_pos h, find?_map_replace_other k k2 v hne kvs]
  · rw [if_neg h, List.find?_append]
    have hd : decide (k = k2) = false :=
      decide_eq_false (fun he => hne he.symm)
    have hlast : ([(k, v)] : List (String × Json)).find?
        (fun p => decide (p.1 = k2)) = none := by
      simp [List.find?, hd]
    rw [hlast]
    cases kvs.find? (fun p => decide (p.1 = k2)) <;> rfl

theorem jget_obj (l : List (String × Json)) (k : String) :
    jget (Json.obj l) k = jfind l k := rfl

/-- The composed meta field, computed: composition on an object reply
always succeeds, writes `meta` back, and the fields read back from the
rewritten meta mapping. -/
theorem composedMetaField_eq (kvs : List (String × Json)) (ph : Bool)
    (f : String) :
    composedMetaField (Json.obj kvs) ph f =
      jfind (objSet (objSet (metaPairsOf kvs) "proxy_from_cache" (.bool ph))
        "any_cache" (.bool (serverHitOf kvs || ph))) f := by
  show ((jget (Json.obj (objSet kvs "meta"
      (Json.obj (objSet (objSet (metaPairsOf kvs) "proxy_from_cache"
        (Json.bool ph)) "any_cache"
        (Json.bool (serverHitOf kvs || ph)))))) "meta").bind
      (fun m => jget m f)) = _
  rw [jget_obj, jfind_objSet_self]
  rfl

/-- Modelled from the claim's words for C1: `serverHit` as "the boolean
value of meta.from_cache, defaulting to false if absent or non-boolean". -/
def specServerHit (kvs : List (String × Json)) : Bool :=
  match (jfind (metaPairsOf kvs) "from_cache").getD .null with
  | .bool b => b
  | _ => false

/-- C1 counterexample: a server reply whose `meta.from_cache` is the JSON
number 1 — non-boolean, so the claim's `serverHit` is false — composed on a
proxy miss (`proxyHit = false`) nevertheless gets `any_cache = true`: the
code (proxy.py line 107) applies Python truthiness, not a boolean-only
reading with a false default. -/
theorem meta_composition_claim_counterexample :
    specServerHit [("meta", Json.obj [("from_cache", Json.num ⟨1, 1⟩)])] =
      false ∧
    composedMetaField
      (Json.obj [("meta", Json.obj [("from_cache", Json.num ⟨1, 1⟩)])]) false
      "any_cache" = some (Json.bool true) :=
  ⟨rfl, rfl⟩

/-- C1 (amended): for every JSON-object server reply and both values of
`proxyHit` — hence all four combinations of `(serverHit, proxyHit)` — the
composed reply's `meta.any_cache` is `serverHit OR proxyHit` and
`meta.proxy_from_cache` equals `proxyHit` exactly, where `serverHit` is the
Python truthiness of `meta.from_cache` (false when absent or falsy, true
for any truthy value whether boolean or not). -/
theorem meta_composition_exhaustive (kvs : List (String × Json)) (ph : Bool) :
    composedMetaField (Json.obj kvs) ph "any_cache" =
      some (Json.bool (serverHitOf kvs || ph)) ∧
    composedMetaField (Json.obj kvs) ph "proxy_from_cache" =
      some (Json.bool ph) := by
  constructor
  · rw [composedMetaField_eq, jfind_objSet_self]
  · rw [composedMetaField_eq,
      jfind_objSet_other _ _ _ _ (by decide), jfind_objSet_self]

/-- A get whose visible result is a miss leaves the cache untouched. -/
theorem lru_get_miss {V : Type} (c : LRUCache V) (k : String)
    (h : (c.get k).1 = none) : c.get k = (none, c) := by
  unfold LRUCache.get at h ⊢
  cases hf : c.d.find? (fun p => decide (p.1 = k)) with
  | none => rfl
  | some p => rw [hf] at h; exact nomatch h

/-- A get that returns a miss pairs it with the unchanged cache. -/
theorem lru_get_none_eq {V : Type} (c c2 : LRUCache V) (k : String)
    (h : c.get k = (none, c2)) : c2 = c := by
  unfold LRUCache.get at h
  cases hf : c.d.find? (fun p => decide (p.1 = k)) with
  | none => rw [hf] at h; exact (congrArg Prod.snd h).symm
  | some p => rw [hf] at h; exact nomatch congrArg Prod.fst h

/-- `handle_request` on a valid gpt request at a cache miss: the response is
the success envelope around whatever string `call_gpt` returned, and that
string is stored in the result cache. -/
theorem handleRequest_gpt (gpt : GptOutcome) (took : Int)
    (kvs dkvs : List (String × Json)) (p : String) (cache : LRUCache Json)
    (hmode : jfind kvs "mode" = some (.str "gpt"))
    (hdata : jfind kvs "data" = some (.obj dkvs))
    (hprompt : jfind dkvs "prompt" = some (.str p))
    (hp : p ≠ "")
    (hopts : jfind kvs "options" = none)
    (hmiss : (cache.get (canonicalKey (.obj kvs))).1 = none) :
    handleRequest gpt took (.obj kvs) cache =
      .ok (okResp (.str (call_gpt gpt)) took,
           cache.set (canonicalKey (.obj kvs)) (.str (call_gpt gpt))) := by
  have hdne : dkvs.isEmpty = false := by
    cases dkvs with
    | nil => rw [show jfind [] "prompt" = none from rfl] at hprompt
             exact nomatch hprompt
    | cons q l => rfl
  unfold handleRequest
  simp only [pyGet, hmode, hdata, hopts, orEmptyDict, pyTruthy, hdne,
    Bool.not_false, if_pos]
  rw [lru_get_miss cache _ hmiss]
  simp only [dispatchAndRespond, requestBody]
  simp only [pyGet]
  have hjnil : ∀ k, jfind ([] : List (String × Json)) k = none := fun _ => rfl
  simp [hprompt, hp, hjnil]

/-- `handle_request` on a valid calc request at a cache miss whose
expression evaluation raises: the response is the "Server error" failure
envelope and the cache is left as it was. -/
theorem handleRequest_calc_eval_error (gpt : GptOutcome) (took : Int)
    (kvs dkvs : List (String × Json)) (s ee : String) (cache : LRUCache Json)
    (hmode : jfind kvs "mode" = some (.str "calc"))
    (hdata : jfind kvs "data" = some (.obj dkvs))
    (hexpr : jfind dkvs "expr" = some (.str s))
    (hs : s ≠ "")
    (hopts : jfind kvs "options" = none)
    (hmiss : (cache.get (canonicalKey (.obj kvs))).1 = none)
    (heval : safe_eval_expr s = .error ee) :
    handleRequest gpt took (.obj kvs) cache =
      .ok (errResp ("Server error: " ++ ee), cache) := by
  have hdne : dkvs.isEmpty = false := by
    cases dkvs with
    | nil => rw [show jfind [] "expr" = none from rfl] at hexpr
             exact nomatch hexpr
    | cons q l => rfl
  unfold handleRequest
  simp only [pyGet, hmode, hdata, hopts, orEmptyDict, pyTruthy, hdne,
    Bool.not_false, if_pos]
  rw [lru_get_miss cache _ hmiss]
  simp only [dispatchAndRespond, requestBody]
  simp only [pyGet]
  simp [hexpr, hs, heval]

/-- C6: a failing text-completion delegate on a valid gpt request never
surfaces as a failure envelope — the response is `ok: true` with a result
string beginning with the "[GPT-ERROR] " marker — whereas a failing
arithmetic evaluation on a valid calc request does produce an
`{ok: false, error: ...}` envelope. -/
theorem gpt_failure_is_success_with_marker (e : String) (took : Int)
    (kvs dkvs : List (String × Json)) (p : String) (cache : LRUCache Json)
    (hmode : jfind kvs "mode" = some (.str "gpt"))
    (hdata : jfind kvs "data" = some (.obj dkvs))
    (hprompt : jfind dkvs "prompt" = some (.str p))
    (hp : p ≠ "")
    (hopts : jfind kvs "options" = none)
    (hmiss : (cache.get (canonicalKey (.obj kvs))).1 = none) :
    (∃ c2, handleRequest (.exn e) took (.obj kvs) cache =
      .ok (okResp (.str ("[GPT-ERROR] " ++ e)) took, c2)) ∧
    jget (okResp (.str ("[GPT-ERROR] " ++ e)) took) "ok" =
      some (.bool true) ∧
    jget (okResp (.str ("[GPT-ERROR] " ++ e)) took) "result" =
      some (.str ("[GPT-ERROR] " ++ e)) ∧
    (∃ rest, ("[GPT-ERROR] " ++ e) = "[GPT-ERROR] " ++ rest) ∧
    (∀ (kvs2 dkvs2 : List (String × Json)) (s ee : String)
       (cache2 : LRUCache Json),
      jfind kvs2 "mode" = some (.str "calc") →
      jfind kvs2 "data" = some (.obj dkvs2) →
      jfind dkvs2 "expr" = some (.str s) → s ≠ "" →
      jfind kvs2 "options" = none →
      (cache2.get (canonicalKey (.obj kvs2))).1 = none →
      safe_eval_expr s = .error ee →
      handleRequest (.exn e) took (.obj kvs2) cache2 =
        .ok (errResp ("Server error: " ++ ee), cache2) ∧
      jget (errResp ("Server error: " ++ ee)) "ok" = some (.bool false)) := by
  refine ⟨⟨_, handleRequest_gpt (.exn e) took kvs dkvs p cache hmode hdata
    hprompt hp hopts hmiss⟩, rfl, rfl, ⟨e, rfl⟩, ?_⟩
  intro kvs2 dkvs2 s ee cache2 h1 h2 h3 h4 h5 h6 h7
  exact ⟨handleRequest_calc_eval_error (.exn e) took kvs2 dkvs2 s ee cache2
    h1 h2 h3 h4 h5 h6 h7, rfl⟩

/-- Witness for C6: delegate failure "quota" on a fresh cache yields the
success envelope carrying the marker string, and evaluating "10/0" yields
the failure envelope. -/
theorem gpt_failure_is_success_with_marker_witness :
    jfind [("mode", Json.str "gpt"), ("data", Json.obj [("prompt",
      Json.str "hi")])] "mode" = some (.str "gpt") ∧
    ("hi" : String) ≠ "" ∧
    (∃ c2, handleRequest (.exn "quota") 0
      (.obj [("mode", .str "gpt"), ("data", .obj [("prompt", .str "hi")])])
      (LRUCache.empty Json 128) =
      .ok (okResp (.str "[GPT-ERROR] quota") 0, c2)) ∧
    handleRequest (.exn "quota") 0
      (.obj [("mode", .str "calc"), ("data", .obj [("expr", .str "10/0")])])
      (LRUCache.empty Json 128) =
      .ok (errResp "Server error: division by zero", LRUCache.empty Json 128)
    := by
  have h := gpt_failure_is_success_with_marker "quota" 0
    [("mode", .str "gpt"), ("data", .obj [("prompt", .str "hi")])]
    [("prompt", .str "hi")] "hi" (LRUCache.empty Json 128)
    rfl rfl rfl (by decide) rfl rfl
  refine ⟨rfl, by decide, h.1, ?_⟩
  have h2 := (h.2.2.2.2 [("mode", .str "calc"),
    ("data", .obj [("expr", .str "10/0")])] [("expr", .str "10/0")]
    "10/0" "division by zero" (LRUCache.empty Json 128)
    rfl rfl rfl (by decide) rfl rfl rfl).1
  exact h2

/-- C8: the evaluator computes "1+2" and "sqrt(9)" to 3.0, a division by
zero yields an `{ok: false, ...}` envelope without crashing the worker and
without touching the cache, and the connection keeps processing the lines
that follow a failing calc request. -/
theorem calc_eval_failures_reported (gpt : GptOutcome) (took : Int) :
    safe_eval_expr "1+2" = .ok ⟨3, 1⟩ ∧
    safe_eval_expr "sqrt(9)" = .ok ⟨3, 1⟩ ∧
    (∃ c2, handleRequest gpt took
      (.obj [("mode", .str "calc"), ("data", .obj [("expr", .str "1+2")])])
      (LRUCache.empty Json 128) = .ok (okResp (.num ⟨3, 1⟩) took, c2)) ∧
    (∃ c2, handleRequest gpt took
      (.obj [("mode", .str "calc"), ("data", .obj [("expr", .str "sqrt(9)")])])
      (LRUCache.empty Json 128) = .ok (okResp (.num ⟨3, 1⟩) took, c2)) ∧
    handleRequest gpt took
      (.obj [("mode", .str "calc"), ("data", .obj [("expr", .str "10/0")])])
      (LRUCache.empty Json 128) =
      .ok (errResp "Server error: division by zero", LRUCache.empty Json 128) ∧
    (∀ (parse : String → Except String Json) (l : String) (ls : List String)
       (cache : LRUCache Json) (kvs2 dkvs2 : List (String × Json))
       (s ee : String),
      parse l = .ok (.obj kvs2) →
      jfind kvs2 "mode" = some (.str "calc") →
      jfind kvs2 "data" = some (.obj dkvs2) →
      jfind dkvs2 "expr" = some (.str s) → s ≠ "" →
      jfind kvs2 "options" = none →
      (cache.get (canonicalKey (.obj kvs2))).1 = none →
      safe_eval_expr s = .error ee →
      serverLoop parse gpt took (l :: ls) cache =
        (errResp ("Server error: " ++ ee) ::
          (serverLoop parse gpt took ls cache).1,
         (serverLoop parse gpt took ls cache).2)) := by
  refine ⟨rfl, rfl, ⟨_, rfl⟩, ⟨_, rfl⟩, rfl, ?_⟩
  intro parse l ls cache kvs2 dkvs2 s ee h1 h2 h3 h4 h5 h6 h7 h8
  have hr := handleRequest_calc_eval_error gpt took kvs2 dkvs2 s ee cache
    h2 h3 h4 h5 h6 h7 h8
  simp only [serverLoop, h1, hr]

/-- Witness for C8's quantified conjunct: a failing "10/0" line followed by
another line still processes the follow-up line. -/
theorem calc_eval_failures_reported_witness :
    serverLoop
      (fun t => if t = "c" then
        .ok (.obj [("mode", .str "calc"), ("data", .obj [("expr",
          .str "10/0")])]) else .error "E")
      (.noText) 0 ["c", "bad"] (LRUCache.empty Json 128) =
      (errResp "Server error: division by zero" ::
        (serverLoop (fun t => if t = "c" then
          .ok (.obj [("mode", .str "calc"), ("data", .obj [("expr",
            .str "10/0")])]) else .error "E") (.noText) 0 ["bad"]
          (LRUCache.empty Json 128)).1,
       (serverLoop (fun t => if t = "c" then
          .ok (.obj [("mode", .str "calc"), ("data", .obj [("expr",
            .str "10/0")])]) else .error "E") (.noText) 0 ["bad"]
          (LRUCache.empty Json 128)).2) := by
  exact (calc_eval_failures_reported (.noText) 0).2.2.2.2.2
    (fun t => if t = "c" then
      .ok (.obj [("mode", .str "calc"), ("data", .obj [("expr",
        .str "10/0")])]) else .error "E")
    "c" ["bad"] (LRUCache.empty Json 128)
    [("mode", .str "calc"), ("data", .obj [("expr", .str "10/0")])]
    [("expr", .str "10/0")] "10/0" "division by zero"
    rfl rfl rfl rfl (by decide) rfl rfl rfl

/-- The lines of a connection all process without raising: each parses and
each `handle_request` returns normally, threading the cache. -/
def noAbort (parse : String → Except String Json) (gpt : GptOutcome)
    (took : Int) : List String → LRUCache Json → Prop
  | [], _ => True
  | l :: ls, cache =>
    ∃ msg, parse l = .ok msg ∧
      ∃ out, handleRequest gpt took msg cache = .ok out ∧
        noAbort parse gpt took ls out.2

/-- C7: a line that fails to parse as JSON makes the connection emit the
replies of the preceding lines, then exactly one `{ok: false, ...}`
envelope, and process nothing further — the lines after it (already framed
in the buffer) contribute no replies and no cache activity. -/
theorem malformed_line_aborts_connection
    (parse : String → Except String Json) (gpt : GptOutcome) (took : Int)
    (bad e : String) (post : List String)
    (hbad : parse bad = .error e) :
    ∀ (pre : List String) (cache : LRUCache Json),
      noAbort parse gpt took pre cache →
      serverLoop parse gpt took (pre ++ bad :: post) cache =
        ((serverLoop parse gpt took pre cache).1 ++ [mkMalformed e],
         (serverLoop parse gpt took pre cache).2) := by
  intro pre
  induction pre with
  | nil =>
    intro cache _
    simp [serverLoop, hbad]
  | cons l pre ih =>
    intro cache hpre
    obtain ⟨msg, hm, ⟨resp, cache2⟩, ho, hrest⟩ := hpre
    have ihx := ih cache2 hrest
    simp only [List.cons_append, serverLoop, hm, ho]
    cases hsl : serverLoop parse gpt took pre cache2 with
    | mk rest cfin => simp [ihx, hsl]

/-- Witness for C7: one good line, then a malformed one, then two more
buffered lines that are dropped. -/
theorem malformed_line_aborts_connection_witness :
    noAbort (fun t => if t = "g" then Except.ok (Json.obj [])
      else Except.error "E") (.noText) 0 ["g"] (LRUCache.empty Json 128) ∧
    (if ("b" : String) = "g" then Except.ok (Json.obj [])
      else Except.error "E") = Except.error "E" ∧
    serverLoop (fun t => if t = "g" then Except.ok (Json.obj [])
        else Except.error "E")
      (.noText) 0 (["g"] ++ "b" :: ["g", "g"]) (LRUCache.empty Json 128) =
      ((serverLoop (fun t => if t = "g" then Except.ok (Json.obj [])
            else Except.error "E")
          (.noText) 0 ["g"] (LRUCache.empty Json 128)).1 ++ [mkMalformed "E"],
       (serverLoop (fun t => if t = "g" then Except.ok (Json.obj [])
            else Except.error "E")
          (.noText) 0 ["g"] (LRUCache.empty Json 128)).2) := by
  have hna : noAbort (fun t => if t = "g" then Except.ok (Json.obj [])
      else Except.error "E") (.noText) 0 ["g"] (LRUCache.empty Json 128) :=
    ⟨.obj [], rfl,
     (errResp "Bad request: unknown mode", LRUCache.empty Json 128),
     rfl, trivial⟩
  exact ⟨hna, rfl,
    malformed_line_aborts_connection _ (.noText) 0 "b" "E" ["g", "g"] rfl
      ["g"] (LRUCache.empty Json 128) hna⟩

/-- C9: whenever `handle_request` answers with a failure envelope
(`ok: false` — validation failure, unknown mode, or evaluation failure), the
result cache comes back exactly as it went in: entries are inserted or
reordered only on `ok: true` responses. -/
theorem error_envelope_leaves_cache_unchanged (gpt : GptOutcome) (took : Int)
    (msg : Json) (cache : LRUCache Json) (resp : Json)
    (cache2 : LRUCache Json)
    (h : handleRequest gpt took msg cache = .ok (resp, cache2))
    (hok : jget resp "ok" = some (.bool false)) : cache2 = cache := by
  unfold handleRequest at h
  cases hm : pyGet msg "mode" with
  | error e => rw [hm] at h; exact nomatch h
  | ok mode =>
  rw [hm] at h
  cases hd : pyGet msg "data" with
  | error e => rw [hd] at h; exact nomatch h
  | ok dataRaw =>
  rw [hd] at h
  cases hop : pyGet msg "options" with
  | error e => rw [hop] at h; exact nomatch h
  | ok optsRaw =>
  rw [hop] at h
  dsimp only at h
  cases hco : pyGet (orEmptyDict optsRaw) "cache" with
  | error e => rw [hco] at h; exact nomatch h
  | ok cacheOpt =>
  rw [hco] at h
  dsimp only at h
  cases hb : pyTruthy (cacheOpt.getD (.bool true)) with
  | true =>
    rw [hb, if_pos rfl] at h
    cases hget : LRUCache.get cache (canonicalKey msg) with
    | mk o c3 =>
    rw [hget] at h
    cases o with
    | some hit =>
      injection h with hpair
      injection hpair with hresp hcache
      rw [← hresp] at hok
      simp [hitResp, jget, jfind, List.find?] at hok
    | none =>
      have hc3 : c3 = cache := lru_get_none_eq cache c3 _ hget
      unfold dispatchAndRespond at h
      cases hrb : requestBody gpt mode (orEmptyDict dataRaw) with
      | error e2 =>
        rw [hrb] at h
        injection h with hpair
        injection hpair with hresp hcache
        rw [← hcache, hc3]
      | ok sr =>
        rw [hrb] at h
        cases sr with
        | inl env =>
          injection h with hpair
          injection hpair with hresp hcache
          rw [← hcache, hc3]
        | inr res =>
          dsimp only at h
          injection h with hpair
          injection hpair with hresp hcache
          rw [← hresp] at hok
          simp [okResp, jget, jfind, List.find?] at hok
  | false =>
    rw [hb, if_neg Bool.false_ne_true] at h
    unfold dispatchAndRespond at h
    cases hrb : requestBody gpt mode (orEmptyDict dataRaw) with
    | error e2 =>
      rw [hrb] at h
      injection h with hpair
      injection hpair with hresp hcache
      exact hcache.symm
    | ok sr =>
      rw [hrb] at h
      cases sr with
      | inl env =>
        injection h with hpair
        injection hpair with hresp hcache
        exact hcache.symm
      | inr res =>
        dsimp only at h
        injection h with hpair
        injection hpair with hresp hcache
        rw [← hresp] at hok
        simp [okResp, jget, jfind, List.find?] at hok

/-- Witness for C9: an unknown-mode request on a fresh cache answers
`ok: false` and the cache stays the fresh cache. -/
theorem error_envelope_leaves_cache_unchanged_witness :
    handleRequest (.noText) 0 (.obj [("mode", .str "nope")])
      (LRUCache.empty Json 128) =
      .ok (errResp "Bad request: unknown mode", LRUCache.empty Json 128) ∧
    jget (errResp "Bad request: unknown mode") "ok" = some (.bool false) ∧
    (LRUCache.empty Json 128 : LRUCache Json) = LRUCache.empty Json 128 := by
  refine ⟨rfl, rfl, ?_⟩
  exact error_envelope_leaves_cache_unchanged (.noText) 0
    (.obj [("mode", .str "nope")]) (LRUCache.empty Json 128)
    (errResp "Bad request: unknown mode") (LRUCache.empty Json 128)
    rfl rfl

theorem find?_dictSet_map_self {V : Type} (k : String) (v : V) :
    ∀ d : List (String × V),
      d.any (fun p => decide (p.1 = k)) = true →
      (d.map (fun p => if p.1 = k then (k, v) else p)).find?
        (fun p => decide (p.1 = k)) = some (k, v) := by
  intro d
  induction d with
  | nil => intro h; simp at h
  | cons p l ih =>
    intro h
    by_cases hp : p.1 = k
    · simp [List.find?, hp]
    · have h2 : l.any (fun p => decide (p.1 = k)) = true := by
        simpa [List.any_cons, hp] using h
      simpa [List.find?_cons, hp] using ih h2

theorem find?_dictSet_map_other {V : Type} (k k2 : String) (v : V)
    (hne : k2 ≠ k) :
    ∀ d : List (String × V),
      (d.map (fun p => if p.1 = k then (k, v) else p)).find?
        (fun p => decide (p.1 = k2)) =
      d.find? (fun p => decide (p.1 = k2)) := by
  intro d
  induction d with
  | nil => rfl
  | cons p l ih =>
    by_cases hp : p.1 = k
    · have h1 : ¬((k, v).1 = k2) := fun he => hne he.symm
      have h2 : ¬(p.1 = k2) := by
        rw [hp]; exact fun he => hne he.symm
      simp only [List.map_cons, if_pos hp, List.find?_cons]
      rw [decide_eq_false h1, decide_eq_false h2]
      exact ih
    · simp only [List.map_cons, if_neg hp, List.find?_cons]
      cases hd : decide (p.1 = k2) with
      | true => rfl
      | false => exact ih

/-- Storing the proxy cache entry for a key and looking the key up. -/
theorem lookupS_dictSet_self (d : List (String × String)) (k v : String) :
    lookupS (dictSet d k v) k = some v := by
  unfold dictSet lookupS
  by_cases h : d.any (fun p => decide (p.1 = k)) = true
  · rw [if_pos h, find?_dictSet_map_self k v d h]
    rfl
  · rw [if_neg h, List.find?_append]
    have hnone : d.find? (fun p => decide (p.1 = k)) = none := by
      rw [List.find?_eq_none]
      intro p hp
      simp only [decide_eq_true_eq]
      intro he
      exact h (List.any_eq_true.mpr ⟨p, hp, by simpa using he⟩)
    rw [hnone]
    simp [List.find?]

/-- Storing a proxy cache entry leaves every other key's lookup unchanged. -/
theorem lookupS_dictSet_other (d : List (String × String)) (k k2 v : String)
    (hne : k2 ≠ k) : lookupS (dictSet d k v) k2 = lookupS d k2 := by
  unfold dictSet lookupS
  by_cases h : d.any (fun p => decide (p.1 = k)) = true
  · rw [if_pos h, find?_dictSet_map_other k k2 v hne d]
  · rw [if_neg h, List.find?_append]
    have hd : decide (k = k2) = false :=
      decide_eq_false (fun he => hne he.symm)
    have hlast : ([(k, v)] : List (String × String)).find?
        (fun p => decide (p.1 = k2)) = none := by
      simp [List.find?, hd]
    rw [hlast]
    cases d.find? (fun p => decide (p.1 = k2)) <;> rfl

/-- C10: a client line that strips to the empty string is silently skipped:
no reply, no forward, the proxy state (cache and upstream call counter)
unchanged, and the loop moves on to the next line. -/
theorem proxy_skips_blank_lines (parse : String → Except String Json)
    (forward : String → String) (st : ProxyState) (line : String)
    (h : pyStrip line = "") :
    proxyStep parse forward st line = (.skip, st) := by
  simp [proxyStep, h]

/-- Witness for C10 on a whitespace-only line. -/
theorem proxy_skips_blank_lines_witness :
    pyStrip " \t " = "" ∧
    proxyStep (fun _ => Except.error "x") (fun _ => "pong") ⟨[], 0⟩ " \t " =
      (.skip, ⟨[], 0⟩) :=
  ⟨rfl, proxy_skips_blank_lines _ _ _ _ rfl⟩

/-- C4: when the (stripped) request line is already a key of the proxy
cache, processing it again is independent of the Forwarder (the upstream
server is not contacted) and leaves the proxy state — cache and call
counter — untouched; the reply served is composed from the stored original
server reply with `proxyHit = true`, its `from_cache` flag frozen as the
server recorded it; and the entry a miss stores is the raw forwarded reply,
before any metadata composition. -/
theorem proxy_cache_hit_frozen (parse : String → Except String Json)
    (forward forward2 : String → String) (st : ProxyState)
    (line base : String) (hne : pyStrip line ≠ "")
    (hhit : lookupS st.cache (pyStrip line) = some base) :
    proxyStep parse forward st line = proxyStep parse forward2 st line ∧
    (proxyStep parse forward st line).2 = st ∧
    (proxyStep parse forward st line).1 = composeReply parse base true ∧
    (∀ kvs : List (String × Json), parse base = .ok (.obj kvs) →
      (proxyStep parse forward st line).1 =
        .reply (dumps (.obj (objSet kvs "meta"
          (.obj (objSet (objSet (metaPairsOf kvs) "proxy_from_cache"
            (.bool true)) "any_cache"
            (.bool (serverHitOf kvs || true)))))))) ∧
    (∀ (st0 : ProxyState) (l2 : String), pyStrip l2 ≠ "" →
      lookupS st0.cache (pyStrip l2) = none →
      lookupS (proxyStep parse forward st0 l2).2.cache (pyStrip l2) =
        some (forward (pyStrip l2)) ∧
      (proxyStep parse forward st0 l2).2.calls = st0.calls + 1) := by
  refine ⟨?_, ?_, ?_, ?_, ?_⟩
  · simp [proxyStep, hne, hhit]
  · simp [proxyStep, hne, hhit]
  · simp [proxyStep, hne, hhit]
  · intro kvs hp
    simp [proxyStep, hne, hhit, composeReply, hp, composeObj]
  · intro st0 l2 h1 h2
    simp [proxyStep, h1, h2, lookupS_dictSet_self]

/-- Witness for C4: the stored reply "SRV" is served on the repeat request
identically under two different forwarders, without a new upstream call. -/
theorem proxy_cache_hit_frozen_witness :
    pyStrip "q" ≠ "" ∧
    lookupS [("q", "SRV")] (pyStrip "q") = some "SRV" ∧
    proxyStep (fun s => if s = "SRV" then Except.ok (Json.obj [("ok",
        Json.bool true), ("meta", Json.obj [("from_cache", Json.bool
        false)])]) else Except.error "nope")
      (fun _ => "SRV") ⟨[("q", "SRV")], 1⟩ "q" =
    proxyStep (fun s => if s = "SRV" then Except.ok (Json.obj [("ok",
        Json.bool true), ("meta", Json.obj [("from_cache", Json.bool
        false)])]) else Except.error "nope")
      (fun _ => "OTHER") ⟨[("q", "SRV")], 1⟩ "q" ∧
    (proxyStep (fun s => if s = "SRV" then Except.ok (Json.obj [("ok",
        Json.bool true), ("meta", Json.obj [("from_cache", Json.bool
        false)])]) else Except.error "nope")
      (fun _ => "SRV") ⟨[("q", "SRV")], 1⟩ "q").2 = ⟨[("q", "SRV")], 1⟩ := by
  have h := proxy_cache_hit_frozen
    (fun s => if s = "SRV" then Except.ok (Json.obj [("ok", Json.bool true),
      ("meta", Json.obj [("from_cache", Json.bool false)])])
      else Except.error "nope")
    (fun _ => "SRV") (fun _ => "OTHER") ⟨[("q", "SRV")], 1⟩ "q" "SRV"
    (by decide) rfl
  exact ⟨by decide, rfl, h.1, h.2.1⟩

/-- C5 counterexample: the client lines "q" and "q " differ as byte strings,
yet after the proxy has served "q" once, the line "q " is a proxy cache hit:
the served reply is the entry stored for "q" and the upstream call counter
does not move — whitespace stripping makes the two lines one key. -/
theorem proxy_raw_key_claim_counterexample :
    ("q" : String) ≠ "q " ∧
    (proxyStep (fun _ => Except.error "x") (fun _ => "pong") ⟨[], 0⟩
      "q").2 = ⟨[("q", "pong")], 1⟩ ∧
    proxyStep (fun _ => Except.error "x") (fun _ => "DIFFERENT")
      ⟨[("q", "pong")], 1⟩ "q " = (.reply "pong", ⟨[("q", "pong")], 1⟩) :=
  ⟨by decide, rfl, rfl⟩

/-- C5 (amended): the Proxy Reply Cache key is the request line after
stripping leading and trailing whitespace — no other transformation and no
JSON canonicalization is applied — so two client lines that differ after
stripping are distinct cache keys: a miss stores under exactly the stripped
line and leaves every other key's entry untouched. -/
theorem proxy_cache_key_is_stripped_line (parse : String → Except String Json)
    (forward : String → String) (st : ProxyState) (line : String)
    (hne : pyStrip line ≠ "")
    (hmiss : lookupS st.cache (pyStrip line) = none) :
    (proxyStep parse forward st line).2.cache =
      dictSet st.cache (pyStrip line) (forward (pyStrip line)) ∧
    lookupS (proxyStep parse forward st line).2.cache (pyStrip line) =
      some (forward (pyStrip line)) ∧
    (∀ k2, k2 ≠ pyStrip line →
      lookupS (proxyStep parse forward st line).2.cache k2 =
        lookupS st.cache k2) := by
  refine ⟨?_, ?_, ?_⟩
  · simp [proxyStep, hne, hmiss]
  · simp [proxyStep, hne, hmiss, lookupS_dictSet_self]
  · intro k2 hk2
    simp [proxyStep, hne, hmiss, lookupS_dictSet_other _ _ _ _ hk2]

/-- Witness for C5's amended statement: a miss on the line " a " stores
under the key "a" and leaves the key "b" alone. -/
theorem proxy_cache_key_is_stripped_line_witness :
    pyStrip " a " ≠ "" ∧
    lookupS [("b", "old")] (pyStrip " a ") = none ∧
    (proxyStep (fun _ => Except.error "x") (fun _ => "pong")
      ⟨[("b", "old")], 7⟩ " a ").2.cache =
      dictSet [("b", "old")] (pyStrip " a ") "pong" ∧
    lookupS (proxyStep (fun _ => Except.error "x") (fun _ => "pong")
      ⟨[("b", "old")], 7⟩ " a ").2.cache "b" = some "old" := by
  have h := proxy_cache_key_is_stripped_line
    (fun _ => Except.error "x") (fun _ => "pong") ⟨[("b", "old")], 7⟩ " a "
    (by decide) rfl
  exact ⟨by decide, rfl, h.1, (h.2.2 "b" (by decide)).trans rfl⟩
